import Mathlib

/-!
Verification of the `Odin.DiffChecker` comparison engine (JSON/XML structural
diff) against its specification.  The JavaScript source is embedded shallowly:
pure functions become Lean functions, the mutable `Int32Array` of the Myers
forward pass becomes a total function `ℤ → ℤ` updated functionally (the code
stores diagonal `k` at array index `offset + k`; out-of-range reads, which the
source never performs — this is proved below — are given the dummy value `-1`),
and the browser-provided black boxes (`JSON.parse`, `JSON.stringify`'s raw
serialization, `DOMParser`/`XMLSerializer`) are taken as function parameters
constrained by hypotheses where a claim needs them.
-/

namespace Odin

namespace Utils

/-- Embedding of `Odin.Utils.escapeHtml`: on a falsy (empty) string returns `''`,
otherwise replaces `&`, `<`, `>`, `"` by their HTML entities, in that order. -/
def escapeHtml (str : String) : String :=
  if str = "" then ""
  else ((((str.replace "&" "&amp;").replace "<" "&lt;").replace ">" "&gt;").replace "\"" "&quot;")

end Utils

/-- The JavaScript whitespace class used by `String.prototype.trim` and `\s`:
ASCII whitespace plus the Unicode space separators, line separators and BOM. -/
def isJsWs (c : Char) : Bool :=
  c == ' ' || c == '\t' || c == '\n' || c == '\r' || c == '\x0b' || c == '\x0c' ||
    c.toNat == 0xA0 || c.toNat == 0x1680 ||
    (decide (0x2000 ≤ c.toNat) && decide (c.toNat ≤ 0x200A)) ||
    c.toNat == 0x2028 || c.toNat == 0x2029 || c.toNat == 0x202F ||
    c.toNat == 0x205F || c.toNat == 0x3000 || c.toNat == 0xFEFF

/-- Embedding of JavaScript `s.trim()`: drop leading and trailing whitespace. -/
def jsTrim (s : String) : String :=
  String.mk (((s.data.dropWhile isJsWs).reverse.dropWhile isJsWs).reverse)

/-- The error record built by `_parseError` from a parser diagnostic.  Only the
`message` field (the first line of the diagnostic, defaulting to
`'Invalid XML'`) is modelled; the `line`/`col` fields extracted by regex are
never observed by the comparison engine. -/
structure ParseErr where
  message : String
deriving DecidableEq, Repr

/-- The message part of `Odin.XmlFormatter._parseError`:
`message.split('\n')[0] || 'Invalid XML'`. -/
def _parseError (message : String) : ParseErr :=
  let m0 := (message.splitOn "\n").headD ""
  ⟨if m0 = "" then "Invalid XML" else m0⟩

/-- JavaScript `err?.message || 'Invalid XML'` on an optional error record. -/
def errMsgOr (e : Option ParseErr) : String :=
  let m := (e.map ParseErr.message).getD ""
  if m = "" then "Invalid XML" else m

namespace XmlFormatter

/-- The result of `Odin.XmlFormatter.validate`: JS `valid` is `null` on blank
input, `true` when the DOM parser reports no `parsererror`, `false` otherwise. -/
inductive ValidateRes where
  | blank : ValidateRes
  | valid : ValidateRes
  | invalid (err : ParseErr) : ValidateRes
deriving DecidableEq, Repr

/-- Embedding of `Odin.XmlFormatter.validate`.  The browser `DOMParser` is the
black box `domErr`, returning the `parsererror` element's text content when
parsing fails and `none` when it succeeds. -/
def validate (domErr : String → Option String) (input : String) : ValidateRes :=
  if input = "" ∨ jsTrim input = "" then .blank
  else
    match domErr input with
    | none => .valid
    | some msg => .invalid (_parseError msg)

/-- One step of the `/>\s+</g → '><'` replacement of `_formatXml` on the
character list, following the left-to-right scan of a global regex replace. -/
def collapseAux : List Char → List Char
  | [] => []
  | '>' :: rest =>
    let ws := rest.takeWhile isJsWs
    let rest' := rest.dropWhile isJsWs
    if ws ≠ [] ∧ rest'.headD ' ' = '<' then '>' :: collapseAux rest'
    else '>' :: (ws ++ collapseAux rest')
  | c :: rest => c :: collapseAux rest
termination_by l => l.length
decreasing_by
  · simp only [List.length_cons]
    have := (List.dropWhile_sublist (l := rest) (p := isJsWs)).length_le
    omega
  · simp only [List.length_cons]
    have := (List.dropWhile_sublist (l := rest) (p := isJsWs)).length_le
    omega
  · simp only [List.length_cons]
    omega

/-- `xml.replace(/>\s+</g, '><')`. -/
def collapseGtLt (s : String) : String :=
  String.mk (collapseAux s.data)

/-- Splitting `xml.replace(/(>)(<)(\/?)/g, '$1\n$2$3').split('\n')`: cut the
text at every `><` boundary. -/
def splitNodesAux (cur : List Char) : List Char → List (List Char)
  | [] => [cur]
  | '>' :: '<' :: rest => (cur ++ ['>']) :: splitNodesAux ['<'] rest
  | c :: rest => splitNodesAux (cur ++ [c]) rest

/-- The node list `_formatXml` iterates over when beautifying. -/
def splitNodes (s : String) : List String :=
  (splitNodesAux [] s.data).map String.mk

/-- The test `/^<\/[^>]+>$/.test(node)`: a lone closing tag. -/
def isClosingTag (s : String) : Bool :=
  match s.data with
  | '<' :: '/' :: rest =>
    decide (2 ≤ rest.length) && rest.getLast? == some '>' &&
      rest.dropLast.all (fun c => c != '>')
  | _ => false

/-- The test `/^<[^!?/][^>]*[^/]>$/.test(node)`: an opening tag that is neither
self-closing nor a declaration or comment. -/
def isOpeningTag (s : String) : Bool :=
  match s.data with
  | '<' :: c1 :: rest =>
    c1 != '!' && c1 != '?' && c1 != '/' &&
      decide (2 ≤ rest.length) && rest.getLast? == some '>' &&
      !(rest.dropLast.getLast? == some '/') &&
      rest.dropLast.dropLast.all (fun c => c != '>')
  | _ => false

/-- The indentation loop of `_formatXml` (beautify branch): trim each node,
skip empties, dedent before a closing tag (floored at 0), print with
`'  '.repeat(pad)`, and indent after an opening tag. -/
def beautifyLoop (pad : ℕ) : List String → List String
  | [] => []
  | node :: rest =>
    let node := jsTrim node
    if node = "" then beautifyLoop pad rest
    else
      let pad' := if isClosingTag node then pad - 1 else pad
      let line := String.join (List.replicate pad' "  ") ++ node
      let pad'' := if isOpeningTag node then pad' + 1 else pad'
      line :: beautifyLoop pad'' rest

/-- Embedding of `Odin.XmlFormatter._formatXml`.  The composition
`new XMLSerializer().serializeToString(new DOMParser().parseFromString(input))`
is the black box `serialize`. -/
def _formatXml (serialize : String → String) (input : String) (minify : Bool) : String :=
  let xml := jsTrim (collapseGtLt (serialize input))
  if minify then xml
  else String.intercalate "\n" (beautifyLoop 0 (splitNodes xml))

/-- The `{result, error}` record returned by `beautify`/`minify`. -/
structure FmtRes where
  result : Option String
  error : Option ParseErr
deriving DecidableEq, Repr

/-- Embedding of `Odin.XmlFormatter.beautify` (the `try` around `_formatXml`
cannot throw in this pure model). -/
def beautify (domErr : String → Option String) (serialize : String → String)
    (input : String) : FmtRes :=
  match validate domErr input with
  | .valid => ⟨some (_formatXml serialize input false), none⟩
  | .blank => ⟨none, none⟩
  | .invalid e => ⟨none, some e⟩

/-- Embedding of `Odin.XmlFormatter.minify`. -/
def minify (domErr : String → Option String) (serialize : String → String)
    (input : String) : FmtRes :=
  match validate domErr input with
  | .valid => ⟨some (_formatXml serialize input true), none⟩
  | .blank => ⟨none, none⟩
  | .invalid e => ⟨none, some e⟩

end XmlFormatter

/-- The JSON value tree produced by `JSON.parse`.  Numbers are modelled as
integers (the only numbers the verified claims exercise); object members keep
their insertion order, as JavaScript objects do for string keys. -/
inductive Json where
  | null : Json
  | bool (b : Bool) : Json
  | num (n : ℤ) : Json
  | str (s : String) : Json
  | arr (elems : List Json) : Json
  | obj (members : List (String × Json)) : Json
deriving Repr

/-- The UTF-16 code units of a string, the units JavaScript string comparison
(`Array.prototype.sort`'s default comparator) works on. -/
def utf16Units (s : String) : List ℕ :=
  (s.data.map (fun c =>
    if c.toNat < 0x10000 then [c.toNat]
    else [0xD800 + (c.toNat - 0x10000) / 0x400, 0xDC00 + (c.toNat - 0x10000) % 0x400])).flatten

/-- Lexicographic comparison of code-unit sequences: the order JavaScript's
default sort comparator induces on strings. -/
def unitsLe : List ℕ → List ℕ → Bool
  | [], _ => true
  | _ :: _, [] => false
  | a :: x, b :: y => decide (a < b) || (a == b && unitsLe x y)

namespace DiffChecker

/-- The key comparison `Object.keys(value).sort()` sorts by. -/
def jsKeyLe (p q : String × Json) : Bool :=
  unitsLe (utf16Units p.1) (utf16Units q.1)

/-- Embedding of `Odin.DiffChecker._sortObject`: arrays map each element
recursively in order; objects are rebuilt with their keys sorted ascending and
each value recursively rewritten; everything else passes through. -/
def _sortObject : Json → Json
  | .null => .null
  | .bool b => .bool b
  | .num n => .num n
  | .str s => .str s
  | .arr xs => .arr (xs.attach.map (fun e => _sortObject e.1))
  | .obj kvs => .obj (((kvs.mergeSort jsKeyLe).attach).map (fun e => (e.1.1, _sortObject e.1.2)))
decreasing_by
  · have h1 := List.sizeOf_lt_of_mem e.2
    simp only [Json.arr.sizeOf_spec]
    omega
  · rename_i kvs
    have hm : e.1 ∈ kvs := (List.mergeSort_perm kvs jsKeyLe).subset e.2
    have h1 : sizeOf e.1 < sizeOf kvs := List.sizeOf_lt_of_mem hm
    have h2 : sizeOf e.1.2 < sizeOf e.1 := by
      obtain ⟨⟨s, j⟩, he⟩ := e
      simp only [Prod.mk.sizeOf_spec]
      omega
    simp only [Json.obj.sizeOf_spec]
    omega

/-- A lower-case hexadecimal digit. -/
def hexDigit (n : ℕ) : Char :=
  if n < 10 then Char.ofNat (48 + n) else Char.ofNat (87 + n)

/-- The escaping `JSON.stringify` applies inside a string literal. -/
def quoteJsonChar (c : Char) : String :=
  if c = '"' then "\\\""
  else if c = '\\' then "\\\\"
  else if c = '\x08' then "\\b"
  else if c = '\t' then "\\t"
  else if c = '\n' then "\\n"
  else if c = '\x0c' then "\\f"
  else if c = '\r' then "\\r"
  else if c.toNat < 0x20 then
    String.mk ['\\', 'u', '0', '0', hexDigit (c.toNat / 16), hexDigit (c.toNat % 16)]
  else String.mk [c]

/-- A JSON string literal as `JSON.stringify` prints it. -/
def quoteJson (s : String) : String :=
  "\"" ++ String.join (s.data.map quoteJsonChar) ++ "\""

/-- Model of the black-box serializer `JSON.stringify(value, null, 2)` (ECMA-404
text with the fixed two-space indentation convention the source selects):
`ind` is the indentation accumulated from the enclosing containers. -/
def stringifyIndent (ind : String) : Json → String
  | .null => "null"
  | .bool true => "true"
  | .bool false => "false"
  | .num n => toString n
  | .str s => quoteJson s
  | .arr [] => "[]"
  | .arr (x :: xs) =>
      "[\n" ++
        String.intercalate ",\n"
          ((x :: xs).attach.map (fun e => ind ++ "  " ++ stringifyIndent (ind ++ "  ") e.1)) ++
        "\n" ++ ind ++ "]"
  | .obj [] => "\x7b\x7d"
  | .obj (p :: ps) =>
      "\x7b\n" ++
        String.intercalate ",\n"
          ((p :: ps).attach.map (fun e =>
            ind ++ "  " ++ quoteJson e.1.1 ++ ": " ++ stringifyIndent (ind ++ "  ") e.1.2)) ++
        "\n" ++ ind ++ "\x7d"
termination_by v => sizeOf v
decreasing_by
  · have h1 := List.sizeOf_lt_of_mem e.2
    simp only [Json.arr.sizeOf_spec]
    omega
  · have h1 := List.sizeOf_lt_of_mem e.2
    have h2 : sizeOf e.1.2 < sizeOf e.1 := by
      obtain ⟨⟨s, j⟩, he⟩ := e
      simp only [Prod.mk.sizeOf_spec]
      omega
    simp only [Json.obj.sizeOf_spec]
    omega

/-- `JSON.stringify(value, null, 2)` at top level. -/
def jsonStringify (v : Json) : String :=
  stringifyIndent "" v

/-- Embedding of `Odin.DiffChecker._normalizeJson`; `JSON.parse` is the browser
black box `parse` (an exception becomes `Except.error` with the exception's
message). -/
def _normalizeJson (parse : String → Except String Json) (input : String) :
    Except String String :=
  match parse input with
  | .error e => .error e
  | .ok parsed => .ok (jsonStringify (_sortObject parsed))

/-- Embedding of `Odin.DiffChecker._normalizeXml`: validate, minify, and
re-beautify the minified form, turning every failure into a thrown message. -/
def _normalizeXml (domErr : String → Option String) (serialize : String → String)
    (input : String) : Except String String :=
  match XmlFormatter.validate domErr input with
  | .blank => .error (errMsgOr none)
  | .invalid e => .error (errMsgOr (some e))
  | .valid =>
    let minified := XmlFormatter.minify domErr serialize input
    match minified.result with
    | none => .error (errMsgOr minified.error)
    | some mr =>
      let beautified := XmlFormatter.beautify domErr serialize mr
      match beautified.result with
      | none => .error (errMsgOr beautified.error)
      | some br => .ok br

/-- Accumulator pass of `text.split('\n')`. -/
def splitLinesAux (cur : List Char) : List Char → List String
  | [] => [String.mk cur]
  | '\n' :: rest => String.mk cur :: splitLinesAux [] rest
  | c :: rest => splitLinesAux (cur ++ [c]) rest

/-- Embedding of JavaScript `text.split('\n')` (`''` splits to `['']`). -/
def splitLines (s : String) : List String :=
  splitLinesAux [] s.data

/-- JS array indexing `a[i]` on an array of strings: `undefined` becomes `none`. -/
def jsGet (a : List String) (i : ℤ) : Option String :=
  if 0 ≤ i ∧ i < a.length then some (a.getD i.toNat "") else none

/-- The diagonal ("snake") loop of `_myers`:
`while (x < N && y < M && a[x] === b[y]) { x++; y++; }` where `y = x - k`. -/
def snakeEnd (a b : List String) (k : ℤ) (x : ℤ) : ℤ :=
  if h : x < (a.length : ℤ) ∧ x - k < (b.length : ℤ) ∧ jsGet a x = jsGet b (x - k) then
    snakeEnd a b k (x + 1)
  else x
termination_by ((a.length : ℤ) - x).toNat
decreasing_by
  omega

/-- The branch test of `_myers`:
`k === -d || (k !== d && v[offset + k - 1] < v[offset + k + 1])`
(true means "move down", i.e. take `x = v[offset + k + 1]`). -/
def moveDown (v : ℤ → ℤ) (offset d k : ℤ) : Prop :=
  k = -d ∨ (k ≠ d ∧ v (offset + k - 1) < v (offset + k + 1))

instance (v : ℤ → ℤ) (offset d k : ℤ) : Decidable (moveDown v offset d k) := by
  unfold moveDown
  infer_instance

/-- The value `x` before the snake in round `d` at diagonal `k`:
either `v[offset + k + 1]` (down) or `v[offset + k - 1] + 1` (right). -/
def vStart (v : ℤ → ℤ) (offset d k : ℤ) : ℤ :=
  if moveDown v offset d k then v (offset + k + 1) else v (offset + k - 1) + 1

/-- The value stored into `v[offset + k]` in round `d` at diagonal `k`. -/
def fwdEntry (a b : List String) (v : ℤ → ℤ) (offset d k : ℤ) : ℤ :=
  snakeEnd a b k (vStart v offset d k)

/-- Whether an array index lies inside the vector `v` of size `2 * (N + M) + 1`
(valid indices are `0 .. hi` with `hi = 2 * (N + M)`). -/
def inB (hi i : ℤ) : Bool :=
  decide (0 ≤ i ∧ i ≤ hi)

/-- The indices the source reads and writes while processing diagonal `k` of
round `d`, following the JavaScript evaluation order (short-circuiting):
for `k = -d` only `offset+k+1` is read, for `k = d` only `offset+k-1`,
otherwise both; `offset+k` is always written. -/
def accessOk (offset d k hi : ℤ) : Bool :=
  (if k = -d then inB hi (offset + k + 1)
   else if k = d then inB hi (offset + k - 1)
   else inB hi (offset + k - 1) && inB hi (offset + k + 1)) &&
  inB hi (offset + k)

/-- The inner loop of the `_myers` forward pass:
`for (let k = -d; k <= d; k += 2)`.  Returns the final vector, the in-bounds
flag, and the break point `(x, y)` when `x >= N && y >= M` fired. -/
def innerLoop (a b : List String) (offset d : ℤ) (k : ℤ) (v : ℤ → ℤ) (ok : Bool) :
    (ℤ → ℤ) × Bool × Option (ℤ × ℤ) :=
  if hk : k ≤ d then
    let x := fwdEntry a b v offset d k
    let v' : ℤ → ℤ := fun i => if i = offset + k then x else v i
    let ok' := ok && accessOk offset d k (2 * offset)
    if (a.length : ℤ) ≤ x ∧ (b.length : ℤ) ≤ x - k then (v', ok', some (x, x - k))
    else innerLoop a b offset d (k + 2) v' ok'
  else (v, ok, none)
termination_by (d + 2 - k).toNat
decreasing_by
  omega

/-- The outer loop of the `_myers` forward pass: `for (let d = 0; d <= MAX; d++)`,
pushing a snapshot of `v` onto the trace before each round and stopping the
whole search when the inner loop breaks.  Returns the trace, whether the
labelled `break outer` fired, and the accumulated in-bounds flag. -/
def outerLoop (a b : List String) (offset : ℤ) (MAX d : ℕ) (v : ℤ → ℤ)
    (trace : List (ℤ → ℤ)) (ok : Bool) : List (ℤ → ℤ) × Bool × Bool :=
  if d ≤ MAX then
    let trace' := trace ++ [v]
    match innerLoop a b offset (d : ℤ) (-(d : ℤ)) v ok with
    | (_, ok', some _) => (trace', true, ok')
    | (v', ok', none) => outerLoop a b offset MAX (d + 1) v' trace' ok'
  else (trace, false, ok)
termination_by MAX + 1 - d

/-- The diagonal walk of the backtracking pass:
`while (x > prevX && y > prevY) { x--; y--; lcs.push({ai: x, bi: y}); }`. -/
def walkBack (x y px py : ℤ) (acc : List (ℤ × ℤ)) : List (ℤ × ℤ) :=
  if _h : px < x ∧ py < y then walkBack (x - 1) (y - 1) px py (acc ++ [(x - 1, y - 1)])
  else acc
termination_by (x - px).toNat
decreasing_by
  omega

/-- The backtracking loop of `_myers`:
`for (let d = trace.length - 1; d >= 0; d--)`, modelled with `dNext` counting the
remaining levels (the level processed is `d = dNext - 1`). -/
def backLoop (trace : List (ℤ → ℤ)) (offset : ℤ) (dNext : ℕ) (x y : ℤ)
    (acc : List (ℤ × ℤ)) : List (ℤ × ℤ) :=
  match dNext with
  | 0 => acc
  | d + 1 =>
    let vPrev := trace.getD d (fun _ => (-1 : ℤ))
    let k := x - y
    let prevK := if moveDown vPrev offset (d : ℤ) k then k + 1 else k - 1
    let prevX := vPrev (offset + prevK)
    let prevY := prevX - prevK
    let acc' := walkBack x y prevX prevY acc
    backLoop trace offset d prevX prevY acc'

/-- Embedding of `Odin.DiffChecker._myers`: Myers O(ND) diff, returning the
matched index pairs `(ai, bi)` in ascending order. -/
def _myers (a b : List String) : List (ℤ × ℤ) :=
  let MAX : ℕ := a.length + b.length
  if MAX = 0 then []
  else if a.length = 0 ∨ b.length = 0 then []
  else
    let offset : ℤ := (MAX : ℤ)
    let v0 : ℤ → ℤ := fun i => if i = offset + 1 then 0 else -1
    let res := outerLoop a b offset MAX 0 v0 [] true
    (backLoop res.1 offset res.1.length (a.length : ℤ) (b.length : ℤ) []).reverse

/-- One output row of `_lineDiff` (a `DiffLine`): its kind, the two line
contents and the 1-based running line number. -/
structure DiffLine where
  type : String
  left : String
  right : String
  line : ℕ
deriving DecidableEq, Repr

/-- The `stats` counters of `_lineDiff`. -/
structure Stats where
  added : ℕ
  removed : ℕ
  changed : ℕ
deriving DecidableEq, Repr

/-- The result record of `_lineDiff`. -/
structure LineDiffResult where
  lines : List DiffLine
  stats : Stats
deriving DecidableEq, Repr

/-- The classifier walk of `_lineDiff`: two cursors `ai`, `bi` over the line
arrays, a pointer `li` into the matching, and the running `lineNum`. -/
def lineDiffLoop (a b : List String) (lcs : List (ℤ × ℤ)) (ai bi li lineNum : ℕ)
    (lines : List DiffLine) (stats : Stats) : List DiffLine × Stats :=
  if hw : ai < a.length ∨ bi < b.length then
    let p := lcs.getD li (0, 0)
    if h1 : li < lcs.length ∧ (ai : ℤ) = p.1 ∧ (bi : ℤ) = p.2 then
      lineDiffLoop a b lcs (ai + 1) (bi + 1) (li + 1) (lineNum + 1)
        (lines ++ [⟨"same", a.getD ai "", b.getD bi "", lineNum + 1⟩]) stats
    else if h2 : ai < a.length ∧ (lcs.length ≤ li ∨ (ai : ℤ) < p.1) ∧
        (lcs.length ≤ li ∨ p.2 ≤ (bi : ℤ) ∨ a.getD ai "" ≠ b.getD bi "") then
      -- `nextLcsAi` and `nextLcsBi` of the source are inlined below
      if h3 : (ai : ℤ) < (if li < lcs.length then p.1 else (a.length : ℤ)) ∧
          (bi : ℤ) < (if li < lcs.length then p.2 else (b.length : ℤ)) then
        lineDiffLoop a b lcs (ai + 1) (bi + 1) li (lineNum + 1)
          (lines ++ [⟨"changed", a.getD ai "", b.getD bi "", lineNum + 1⟩])
          { stats with changed := stats.changed + 1 }
      else if h4 : (ai : ℤ) < (if li < lcs.length then p.1 else (a.length : ℤ)) then
        lineDiffLoop a b lcs (ai + 1) bi li (lineNum + 1)
          (lines ++ [⟨"removed", a.getD ai "", "", lineNum + 1⟩])
          { stats with removed := stats.removed + 1 }
      else
        lineDiffLoop a b lcs ai (bi + 1) li (lineNum + 1)
          (lines ++ [⟨"added", "", b.getD bi "", lineNum + 1⟩])
          { stats with added := stats.added + 1 }
    else if h5 : bi < b.length then
      lineDiffLoop a b lcs ai (bi + 1) li (lineNum + 1)
        (lines ++ [⟨"added", "", b.getD bi "", lineNum + 1⟩])
        { stats with added := stats.added + 1 }
    else
      lineDiffLoop a b lcs (ai + 1) bi li (lineNum + 1)
        (lines ++ [⟨"removed", a.getD ai "", "", lineNum + 1⟩])
        { stats with removed := stats.removed + 1 }
  else (lines, stats)
termination_by (a.length - ai) + (b.length - bi)
decreasing_by
  all_goals
    first
    | omega
    | (exfalso; split at h4 <;> omega)

/-- Embedding of `Odin.DiffChecker._lineDiff`: split both texts on newlines,
run Myers, then classify every line. -/
def _lineDiff (leftText rightText : String) : LineDiffResult :=
  let a := splitLines leftText
  let b := splitLines rightText
  let lcs := _myers a b
  let r := lineDiffLoop a b lcs 0 0 0 0 [] ⟨0, 0, 0⟩
  ⟨r.1, r.2⟩

/-- Embedding of `Odin.DiffChecker._renderDiff`: one `<div>` row per line,
joined with `''` (`row.left ?? ''` never fires: the embedded rows always carry
strings). -/
def _renderDiff (diff : LineDiffResult) : String :=
  String.join (diff.lines.map (fun row =>
    "<div class=\"diff-row diff-" ++ row.type ++ "\"><span class=\"diff-ln\">" ++
      toString row.line ++ "</span><span class=\"diff-left\">" ++
      Utils.escapeHtml row.left ++ "</span><span class=\"diff-right\">" ++
      Utils.escapeHtml row.right ++ "</span></div>"))

/-- The result record of `Odin.DiffChecker.compare`; the error paths of the
source omit `leftNormalized`/`rightNormalized`, modelled as `none`. -/
structure CompareResult where
  equal : Bool
  error : Option String
  html : String
  stats : Stats
  leftNormalized : Option String
  rightNormalized : Option String
deriving DecidableEq, Repr

/-- Embedding of `Odin.DiffChecker.compare`.  The two canonicalizers (which
close over the browser's parsing black boxes) are passed as functions: `compare`
first rejects blank inputs, then canonicalizes the left input and the right
input in that order, catching the first failure, and finally diffs. -/
def compare (normJson normXml : String → Except String String)
    (leftInput rightInput mode : String) : CompareResult :=
  if jsTrim leftInput = "" ∨ jsTrim rightInput = "" then
    ⟨false, some "Both inputs are required", "", ⟨0, 0, 0⟩, none, none⟩
  else
    let norm := if mode = "json" then normJson else normXml
    match norm leftInput with
    | .error e => ⟨false, some e, "", ⟨0, 0, 0⟩, none, none⟩
    | .ok leftNormalized =>
      match norm rightInput with
      | .error e => ⟨false, some e, "", ⟨0, 0, 0⟩, none, none⟩
      | .ok rightNormalized =>
        let equal := leftNormalized = rightNormalized
        let diff := _lineDiff leftNormalized rightNormalized
        ⟨equal, none, _renderDiff diff, diff.stats,
          some leftNormalized, some rightNormalized⟩

/-- The forward pass of `_myers` in isolation (the trace of snapshots, the
`break outer` flag and the access-in-bounds flag), with the same setup as
`_myers`. -/
def myersRun (a b : List String) : List (ℤ → ℤ) × Bool × Bool :=
  let MAX : ℕ := a.length + b.length
  let offset : ℤ := (MAX : ℤ)
  let v0 : ℤ → ℤ := fun i => if i = offset + 1 then 0 else -1
  outerLoop a b offset MAX 0 v0 [] true

/-- Specification-side predicate: `m` is a common-subsequence matching of `a`
and `b` — the pairs are strictly increasing in both components, in bounds, and
pair equal lines. -/
def IsMatching (a b : List String) (m : List (ℤ × ℤ)) : Prop :=
  List.Chain' (fun p q => p.1 < q.1 ∧ p.2 < q.2) m ∧
  ∀ p ∈ m, 0 ≤ p.1 ∧ p.1 < (a.length : ℤ) ∧ 0 ≤ p.2 ∧ p.2 < (b.length : ℤ) ∧
    a.getD p.1.toNat "" = b.getD p.2.toNat ""

/-- Specification-side: the length of a longest common subsequence, by the
textbook recurrence. -/
def lcsLen : List String → List String → ℕ
  | [], _ => 0
  | _ :: _, [] => 0
  | x :: xs, y :: ys =>
    if x = y then lcsLen xs ys + 1
    else max (lcsLen (x :: xs) ys) (lcsLen xs (y :: ys))
termination_by a b => a.length + b.length

/-- Specification-side: `m` is a longest common subsequence matching. -/
def IsLcs (a b : List String) (m : List (ℤ × ℤ)) : Prop :=
  IsMatching a b m ∧ ∀ m', IsMatching a b m' → m'.length ≤ m.length

/-- Reachability in the (extended) Myers edit graph: `Reach a b d x y` holds
when `(x, y)` can be reached from `(0, 0)` by `d` horizontal/vertical edit
steps plus any number of diagonal steps, where a diagonal step from `(x, y)`
requires the in-grid line match `a[x] === b[y]` exactly as the snake loop tests
it.  Horizontal and vertical steps are unrestricted, matching the intermediate
out-of-grid values the forward vector can hold. -/
inductive Reach (a b : List String) : ℕ → ℤ → ℤ → Prop where
  | zero : Reach a b 0 0 0
  | diag (d : ℕ) (x y : ℤ) : Reach a b d x y → x < (a.length : ℤ) →
      y < (b.length : ℤ) → jsGet a x = jsGet b y → Reach a b d (x + 1) (y + 1)
  | right (d : ℕ) (x y : ℤ) : Reach a b d x y → Reach a b (d + 1) (x + 1) y
  | down (d : ℕ) (x y : ℤ) : Reach a b d x y → Reach a b (d + 1) x (y + 1)

/-- Pairwise-distinct object keys, compared as the code-unit sequences the
sort comparator uses. -/
def nodupKeys (kvs : List (String × Json)) : Prop :=
  (kvs.map (fun p => utf16Units p.1)).Nodup

/-- Specification-side: every object anywhere in the tree has
pairwise-distinct keys (what `JSON.parse` guarantees for its output). -/
inductive GoodKeys : Json → Prop where
  | null : GoodKeys .null
  | bool (bv : Bool) : GoodKeys (.bool bv)
  | num (n : ℤ) : GoodKeys (.num n)
  | str (s : String) : GoodKeys (.str s)
  | arr (xs : List Json) : (∀ x ∈ xs, GoodKeys x) → GoodKeys (.arr xs)
  | obj (kvs : List (String × Json)) : nodupKeys kvs →
      (∀ p ∈ kvs, GoodKeys p.2) → GoodKeys (.obj kvs)

/-- Specification-side: two parsed values differ only in the order of
key/value pairs of objects, at any nesting depth (arrays keep their element
order). -/
inductive KeyEquiv : Json → Json → Prop where
  | null : KeyEquiv .null .null
  | bool (bv : Bool) : KeyEquiv (.bool bv) (.bool bv)
  | num (n : ℤ) : KeyEquiv (.num n) (.num n)
  | str (s : String) : KeyEquiv (.str s) (.str s)
  | arr (xs ys : List Json) : xs.length = ys.length →
      (∀ p ∈ xs.zip ys, KeyEquiv p.1 p.2) → KeyEquiv (.arr xs) (.arr ys)
  | obj (kvs l kvs' : List (String × Json)) : kvs.Perm l → l.length = kvs'.length →
      (∀ p ∈ l.zip kvs', p.1.1 = p.2.1) →
      (∀ p ∈ l.zip kvs', KeyEquiv p.1.2 p.2.2) →
      KeyEquiv (.obj kvs) (.obj kvs')

/-- The number of `same` rows in a classifier output. -/
def sameCount (lines : List DiffLine) : ℕ :=
  lines.countP (fun dl => dl.type == "same")

/-- The left contents of the rows that consume a left line
(kinds `same`, `removed`, `changed`), in emission order. -/
def leftsOf (lines : List DiffLine) : List String :=
  (lines.filter (fun dl => dl.type == "same" || dl.type == "removed" ||
    dl.type == "changed")).map DiffLine.left

/-- The right contents of the rows that consume a right line
(kinds `same`, `added`, `changed`), in emission order. -/
def rightsOf (lines : List DiffLine) : List String :=
  (lines.filter (fun dl => dl.type == "same" || dl.type == "added" ||
    dl.type == "changed")).map DiffLine.right

/-- The idealized effect of one full inner round of the forward pass: all
diagonals of round `d`'s parity within `[-d, d]` receive their round-`d` entry
computed from the previous state, everything else is untouched.  (That the
threaded updates of `innerLoop` implement this is proved below, using that a
round only reads diagonals of the opposite parity.) -/
def roundUpd (a b : List String) (offset : ℤ) (d : ℕ) (v : ℤ → ℤ) : ℤ → ℤ :=
  fun i =>
    if -(d : ℤ) ≤ i - offset ∧ i - offset ≤ (d : ℤ) ∧ (i - offset) % 2 = (d : ℤ) % 2 then
      fwdEntry a b v offset (d : ℤ) (i - offset)
    else v i

/-- The idealized forward vector before round `d` (round `d - 1` completed):
`vIter 0` is the initial vector `fill(-1)` with `v[offset + 1] = 0`. -/
def vIter (a b : List String) (offset : ℤ) : ℕ → (ℤ → ℤ)
  | 0 => fun i => if i = offset + 1 then 0 else -1
  | d + 1 => roundUpd a b offset d (vIter a b offset d)

/-- The `x >= N && y >= M` break test fires in round `d` at diagonal `k` (on
the idealized run). -/
def breakAt (a b : List String) (offset : ℤ) (d : ℕ) (k : ℤ) : Prop :=
  -(d : ℤ) ≤ k ∧ k ≤ (d : ℤ) ∧ k % 2 = (d : ℤ) % 2 ∧
  (a.length : ℤ) ≤ fwdEntry a b (vIter a b offset d) offset (d : ℤ) k ∧
  (b.length : ℤ) ≤ fwdEntry a b (vIter a b offset d) offset (d : ℤ) k - k

end DiffChecker

end Odin

/-!
## Theorems

All definitions are above; everything below is proved about them.
-/

namespace Odin

namespace DiffChecker

theorem jsTrim_eq_empty_of_all_ws (s : String) (h : ∀ c ∈ s.data, isJsWs c) :
    jsTrim s = "" := by
  unfold jsTrim
  have h1 : s.data.dropWhile isJsWs = [] := by
    rw [List.dropWhile_eq_nil_iff]
    intro c hc
    exact h c hc
  rw [h1]
  rfl

/-- C7: if either input is empty or all-whitespace, `compare` returns
immediately with `equal = false`, error `"Both inputs are required"`, empty
rendered line list and zero stats, and the result does not depend on the
canonicalizers (no canonicalization is attempted). -/
theorem compare_blank_input (normJson normXml normJson' normXml' : String → Except String String)
    (leftInput rightInput mode : String)
    (h : (∀ c ∈ leftInput.data, isJsWs c) ∨ (∀ c ∈ rightInput.data, isJsWs c)) :
    compare normJson normXml leftInput rightInput mode =
      ⟨false, some "Both inputs are required", "", ⟨0, 0, 0⟩, none, none⟩ ∧
    compare normJson normXml leftInput rightInput mode =
      compare normJson' normXml' leftInput rightInput mode := by
  have hb : jsTrim leftInput = "" ∨ jsTrim rightInput = "" := by
    rcases h with h | h
    · exact Or.inl (jsTrim_eq_empty_of_all_ws _ h)
    · exact Or.inr (jsTrim_eq_empty_of_all_ws _ h)
  constructor
  · unfold compare
    rw [if_pos hb]
  · unfold compare
    rw [if_pos hb, if_pos hb]

/-- Witness for C7 at Scenario D's input: the left input `''` is blank, and
`compare` returns the required-error record whatever the canonicalizers do. -/
theorem compare_blank_input_witness :
    compare (fun s => Except.ok s) (fun s => Except.ok s) "" "x" "json" =
      ⟨false, some "Both inputs are required", "", ⟨0, 0, 0⟩, none, none⟩ ∧
    compare (fun s => Except.ok s) (fun s => Except.ok s) "" "x" "json" =
      compare (fun _ => Except.error "unused") (fun _ => Except.error "unused") "" "x" "json" :=
  compare_blank_input _ _ _ _ "" "x" "json" (Or.inl (by decide))

/-- C3: on the success path (both inputs non-blank, both canonicalizations
succeed) the returned `equal` flag is true exactly when the returned
`leftNormalized` and `rightNormalized` strings are equal. -/
theorem compare_equal_iff_normalized_eq (normJson normXml : String → Except String String)
    (leftInput rightInput mode ln rn : String)
    (hl : jsTrim leftInput ≠ "") (hr : jsTrim rightInput ≠ "")
    (hln : (if mode = "json" then normJson else normXml) leftInput = .ok ln)
    (hrn : (if mode = "json" then normJson else normXml) rightInput = .ok rn) :
    (compare normJson normXml leftInput rightInput mode).equal = true ↔
      (compare normJson normXml leftInput rightInput mode).leftNormalized =
        (compare normJson normXml leftInput rightInput mode).rightNormalized := by
  have hcond : ¬(jsTrim leftInput = "" ∨ jsTrim rightInput = "") := by tauto
  unfold compare
  rw [if_neg hcond]
  simp only [hln, hrn]
  simp

/-- Witness for C3 at a concrete success-path input. -/
theorem compare_equal_iff_normalized_eq_witness :
    (compare (fun s => Except.ok s) (fun s => Except.ok s) "a" "a" "json").equal = true ↔
      (compare (fun s => Except.ok s) (fun s => Except.ok s) "a" "a" "json").leftNormalized =
        (compare (fun s => Except.ok s) (fun s => Except.ok s) "a" "a" "json").rightNormalized :=
  compare_equal_iff_normalized_eq (fun s => Except.ok s) (fun s => Except.ok s)
    "a" "a" "json" "a" "a" (by decide) (by decide) rfl rfl

/-- C8: with both inputs non-blank, a canonicalization failure is returned as
data (never escapes): if the left canonicalization fails with message `msg`
the result carries `equal = false`, `error = msg`, empty rendered lines, zero
stats and no normalized strings; if the left succeeds and the right fails with
`msg`, the same record with the right side's message is returned. -/
theorem compare_parse_failure :
    (∀ (normJson normXml : String → Except String String) (leftInput rightInput mode msg : String),
      jsTrim leftInput ≠ "" → jsTrim rightInput ≠ "" →
      (if mode = "json" then normJson else normXml) leftInput = .error msg →
      compare normJson normXml leftInput rightInput mode =
        ⟨false, some msg, "", ⟨0, 0, 0⟩, none, none⟩) ∧
    (∀ (normJson normXml : String → Except String String)
        (leftInput rightInput mode ln msg : String),
      jsTrim leftInput ≠ "" → jsTrim rightInput ≠ "" →
      (if mode = "json" then normJson else normXml) leftInput = .ok ln →
      (if mode = "json" then normJson else normXml) rightInput = .error msg →
      compare normJson normXml leftInput rightInput mode =
        ⟨false, some msg, "", ⟨0, 0, 0⟩, none, none⟩) := by
  constructor
  · intro normJson normXml leftInput rightInput mode msg hl hr hfail
    have hcond : ¬(jsTrim leftInput = "" ∨ jsTrim rightInput = "") := by tauto
    unfold compare
    rw [if_neg hcond]
    simp only [hfail]
  · intro normJson normXml leftInput rightInput mode ln msg hl hr hok hfail
    have hcond : ¬(jsTrim leftInput = "" ∨ jsTrim rightInput = "") := by tauto
    unfold compare
    rw [if_neg hcond]
    simp only [hok, hfail]

/-- Witness for C8: a failing left canonicalizer and a failing right
canonicalizer each surface their message, at concrete inputs. -/
theorem compare_parse_failure_witness :
    compare (fun _ => Except.error "bad json") (fun s => Except.ok s) "l" "r" "json" =
      ⟨false, some "bad json", "", ⟨0, 0, 0⟩, none, none⟩ ∧
    compare (fun s => if s = "l" then Except.ok "L" else Except.error "bad right")
        (fun s => Except.ok s) "l" "r" "json" =
      ⟨false, some "bad right", "", ⟨0, 0, 0⟩, none, none⟩ :=
  ⟨compare_parse_failure.1 (fun _ => Except.error "bad json") (fun s => Except.ok s)
      "l" "r" "json" "bad json" (by decide) (by decide) rfl,
    compare_parse_failure.2 (fun s => if s = "l" then Except.ok "L" else Except.error "bad right")
      (fun s => Except.ok s) "l" "r" "json" "L" "bad right" (by decide) (by decide)
      (by simp) (by simp)⟩

unseal snakeEnd innerLoop outerLoop walkBack lineDiffLoop in
/-- C4: on Scenario B's inputs the diff has exactly one `added` entry, whose
right content is `"inserted"`, exactly three `same` entries, and zero
`removed` or `changed` entries. -/
theorem lineDiff_scenario_b :
    ((_lineDiff "line1\nline2\nline3" "inserted\nline1\nline2\nline3").lines.filter
        (fun dl => dl.type == "added")).map DiffLine.right = ["inserted"] ∧
    sameCount (_lineDiff "line1\nline2\nline3" "inserted\nline1\nline2\nline3").lines = 3 ∧
    (_lineDiff "line1\nline2\nline3" "inserted\nline1\nline2\nline3").stats =
      ⟨1, 0, 0⟩ := by
  decide

end DiffChecker

end Odin

namespace Odin

namespace DiffChecker

theorem unitsLe_total (x y : List ℕ) : unitsLe x y = true ∨ unitsLe y x = true := by
  induction x generalizing y with
  | nil => left; rfl
  | cons a x ih =>
    cases y with
    | nil => right; rfl
    | cons b y =>
      rcases Nat.lt_trichotomy a b with h | h | h
      · left; simp [unitsLe, h]
      · subst h
        rcases ih y with hh | hh
        · left; simp [unitsLe, hh]
        · right; simp [unitsLe, hh]
      · right; simp [unitsLe, h]

theorem unitsLe_trans (x y z : List ℕ) (h1 : unitsLe x y = true) (h2 : unitsLe y z = true) :
    unitsLe x z = true := by
  induction x generalizing y z with
  | nil => rfl
  | cons a x ih =>
    cases y with
    | nil => simp [unitsLe] at h1
    | cons b y =>
      cases z with
      | nil => simp [unitsLe] at h2
      | cons c z =>
        simp only [unitsLe, Bool.or_eq_true, Bool.and_eq_true, decide_eq_true_eq,
          beq_iff_eq] at h1 h2 ⊢
        rcases h1 with h1 | ⟨rfl, h1⟩
        · rcases h2 with h2 | ⟨rfl, h2⟩
          · exact Or.inl (h1.trans h2)
          · exact Or.inl h1
        · rcases h2 with h2 | ⟨rfl, h2⟩
          · exact Or.inl h2
          · exact Or.inr ⟨rfl, ih y z h1 h2⟩

theorem unitsLe_antisymm (x y : List ℕ) (h1 : unitsLe x y = true) (h2 : unitsLe y x = true) :
    x = y := by
  induction x generalizing y with
  | nil =>
    cases y with
    | nil => rfl
    | cons b y => simp [unitsLe] at h2
  | cons a x ih =>
    cases y with
    | nil => simp [unitsLe] at h1
    | cons b y =>
      simp only [unitsLe, Bool.or_eq_true, Bool.and_eq_true, decide_eq_true_eq,
        beq_iff_eq] at h1 h2
      rcases h1 with h1 | ⟨rfl, h1⟩
      · rcases h2 with h2 | ⟨heq, h2⟩
        · omega
        · omega
      · rcases h2 with h2 | ⟨heq, h2⟩
        · omega
        · rw [ih y h1 h2]

theorem map_eq_of_zip {α β γ : Type} (f : α → γ) (g : β → γ) :
    ∀ (l₁ : List α) (l₂ : List β), l₁.length = l₂.length →
      (∀ p ∈ l₁.zip l₂, f p.1 = g p.2) → l₁.map f = l₂.map g := by
  intro l₁
  induction l₁ with
  | nil =>
    intro l₂ hlen _
    cases l₂ with
    | nil => rfl
    | cons b l₂ => simp at hlen
  | cons a l₁ ih =>
    intro l₂ hlen hz
    cases l₂ with
    | nil => simp at hlen
    | cons b l₂ =>
      simp only [List.map_cons, List.cons.injEq]
      constructor
      · exact hz (a, b) (by simp [List.zip])
      · exact ih l₂ (by simpa using hlen) (fun p hp => hz p (by simp [List.zip]; right; simpa [List.zip] using hp))

theorem sortObject_arr (xs : List Json) :
    _sortObject (.arr xs) = .arr (xs.map _sortObject) := by
  rw [_sortObject]
  rw [List.attach_map_val]

theorem sortObject_obj (kvs : List (String × Json)) :
    _sortObject (.obj kvs) =
      .obj ((kvs.mergeSort jsKeyLe).map (fun p => (p.1, _sortObject p.2))) := by
  rw [_sortObject]
  congr 1
  rw [← List.attach_map_val (kvs.mergeSort jsKeyLe) (fun p => (p.1, _sortObject p.2))]

end DiffChecker

end Odin

namespace Odin

namespace DiffChecker

theorem jsKeyLe_trans : ∀ (a b c : String × Json),
    jsKeyLe a b = true → jsKeyLe b c = true → jsKeyLe a c = true :=
  fun _ _ _ h1 h2 => unitsLe_trans _ _ _ h1 h2

theorem jsKeyLe_total : ∀ (a b : String × Json), (jsKeyLe a b || jsKeyLe b a) = true := by
  intro a b
  rcases unitsLe_total (utf16Units a.1) (utf16Units b.1) with h | h <;>
    simp [jsKeyLe, h]

theorem sortPairs_sorted (kvs : List (String × Json)) :
    List.Pairwise (fun p q => jsKeyLe p q = true) (kvs.mergeSort jsKeyLe) :=
  List.sorted_mergeSort jsKeyLe_trans jsKeyLe_total kvs

theorem nodupKeys_perm {kvs kvs' : List (String × Json)} (hp : kvs.Perm kvs')
    (h : nodupKeys kvs) : nodupKeys kvs' :=
  (hp.map (fun p : String × Json => utf16Units p.1)).nodup h

theorem sortPairs_strict (kvs : List (String × Json)) (hnd : nodupKeys kvs) :
    List.Pairwise
      (fun p q : String × Json => jsKeyLe p q = true ∧ utf16Units p.1 ≠ utf16Units q.1)
      (kvs.mergeSort jsKeyLe) := by
  have hs := sortPairs_sorted kvs
  have hnd' : nodupKeys (kvs.mergeSort jsKeyLe) :=
    nodupKeys_perm (List.mergeSort_perm kvs jsKeyLe).symm hnd
  have hpw : List.Pairwise (fun p q : String × Json => utf16Units p.1 ≠ utf16Units q.1)
      (kvs.mergeSort jsKeyLe) := by
    have := hnd'
    unfold nodupKeys at this
    rw [List.Nodup, List.pairwise_map] at this
    exact this
  exact hs.and hpw

theorem sorted_strict_perm_eq {A B : List (String × Json)}
    (hperm : A.Perm B)
    (hA : List.Pairwise
      (fun p q : String × Json => jsKeyLe p q = true ∧ utf16Units p.1 ≠ utf16Units q.1) A)
    (hB : List.Pairwise
      (fun p q : String × Json => jsKeyLe p q = true ∧ utf16Units p.1 ≠ utf16Units q.1) B) :
    A = B := by
  letI : IsAntisymm (String × Json)
      (fun p q : String × Json => jsKeyLe p q = true ∧ utf16Units p.1 ≠ utf16Units q.1) :=
    ⟨by
      intro a b h1 h2
      exact absurd (unitsLe_antisymm _ _ h1.1 h2.1) h1.2⟩
  exact List.eq_of_perm_of_sorted hperm hA hB

end DiffChecker

end Odin

namespace Odin

namespace DiffChecker

theorem sortObject_eq_of_keyEquiv {v w : Json} (h : KeyEquiv v w) (hg : GoodKeys v) :
    _sortObject v = _sortObject w := by
  induction h with
  | null => rfl
  | bool bv => rfl
  | num n => rfl
  | str s => rfl
  | arr xs ys hlen hzip ih =>
    rw [sortObject_arr, sortObject_arr]
    congr 1
    apply map_eq_of_zip _ _ _ _ hlen
    intro p hp
    apply ih p hp
    cases hg with
    | arr _ hxs =>
      obtain ⟨p1, p2⟩ := p
      exact hxs p1 (List.of_mem_zip hp).1
  | obj kvs l kvs' hperm hlen hkeys hvals ih =>
    cases hg with
    | obj _ hnd hgv =>
      rw [sortObject_obj, sortObject_obj]
      have hGl : ∀ p ∈ l, GoodKeys p.2 := fun p hp => hgv p (hperm.symm.subset hp)
      have h1 : l.map (fun p => (p.1, _sortObject p.2)) =
          kvs'.map (fun p => (p.1, _sortObject p.2)) := by
        apply map_eq_of_zip _ _ _ _ hlen
        intro p hp
        obtain ⟨p1, p2⟩ := p
        have hk := hkeys (p1, p2) hp
        have hv := ih (p1, p2) hp (hGl p1 (List.of_mem_zip hp).1)
        show (p1.1, _sortObject p1.2) = (p2.1, _sortObject p2.2)
        rw [hk, hv]
      have hndl : nodupKeys l := nodupKeys_perm hperm hnd
      have hndr : nodupKeys kvs' := by
        unfold nodupKeys at hndl ⊢
        have hkeq : l.map (fun p : String × Json => utf16Units p.1) =
            kvs'.map (fun p : String × Json => utf16Units p.1) := by
          apply map_eq_of_zip _ _ _ _ hlen
          intro p hp
          obtain ⟨p1, p2⟩ := p
          have hk := hkeys (p1, p2) hp
          simp only []
          rw [hk]
        rw [← hkeq]
        exact hndl
      have hpm : ((kvs.mergeSort jsKeyLe).map (fun p => (p.1, _sortObject p.2))).Perm
          ((kvs'.mergeSort jsKeyLe).map (fun p => (p.1, _sortObject p.2))) := by
        have P1 := (List.mergeSort_perm kvs jsKeyLe).map (fun p : String × Json => (p.1, _sortObject p.2))
        have P2 := hperm.map (fun p : String × Json => (p.1, _sortObject p.2))
        have P4 := ((List.mergeSort_perm kvs' jsKeyLe).map
          (fun p : String × Json => (p.1, _sortObject p.2))).symm
        rw [h1] at P2
        exact P1.trans (P2.trans P4)
      have hs1 : List.Pairwise
          (fun p q : String × Json => jsKeyLe p q = true ∧ utf16Units p.1 ≠ utf16Units q.1)
          ((kvs.mergeSort jsKeyLe).map (fun p => (p.1, _sortObject p.2))) :=
        List.pairwise_map.mpr (sortPairs_strict kvs hnd)
      have hs2 : List.Pairwise
          (fun p q : String × Json => jsKeyLe p q = true ∧ utf16Units p.1 ≠ utf16Units q.1)
          ((kvs'.mergeSort jsKeyLe).map (fun p => (p.1, _sortObject p.2))) :=
        List.pairwise_map.mpr (sortPairs_strict kvs' hndr)
      exact congrArg Json.obj (sorted_strict_perm_eq hpm hs1 hs2)

end DiffChecker

end Odin

namespace Odin

namespace DiffChecker

unseal List.mergeSort _sortObject stringifyIndent in
/-- C5 (amended): JSON key insertion order never affects the canonical form —
values that differ only in object key order (at any depth, with the
duplicate-free keys `JSON.parse` guarantees) canonicalize identically — while
array element order does affect it in general: e.g. the canonical forms of
`[1,2]` and `[2,1]` differ.  (A permutation that reproduces the same element
sequence, possible when elements repeat, leaves the form unchanged — see the
counterexample.) -/
theorem json_key_order_invariance :
    (∀ v w : Json, GoodKeys v → KeyEquiv v w →
      jsonStringify (_sortObject v) = jsonStringify (_sortObject w)) ∧
    jsonStringify (_sortObject (.arr [.num 1, .num 2])) ≠
      jsonStringify (_sortObject (.arr [.num 2, .num 1])) := by
  constructor
  · intro v w hg he
    exact congrArg jsonStringify (sortObject_eq_of_keyEquiv he hg)
  · decide

unseal List.mergeSort _sortObject stringifyIndent in
/-- Counterexample to C5 as stated: reversing the array `[1, 2, 1]` is a
non-trivial permutation of an array whose elements are not all equal, yet the
canonical form is unchanged (the reversed sequence coincides with the
original), refuting "permuting the elements of an array whose elements are not
all equal always yields a different canonical form". -/
theorem sortObject_array_permutation_counterexample :
    ([Json.num 1, Json.num 2, Json.num 1].reverse).Perm
      [Json.num 1, Json.num 2, Json.num 1] ∧
    Json.num 1 ≠ Json.num 2 ∧
    jsonStringify (_sortObject (.arr [Json.num 1, Json.num 2, Json.num 1])) =
      jsonStringify (_sortObject (.arr ([Json.num 1, Json.num 2, Json.num 1].reverse))) := by
  refine ⟨by simp, by simp, by decide⟩

/-- Witness for C5's amended theorem at the spec's concrete example
`{"b":2,"a":1}` vs `{"a":1,"b":2}`. -/
theorem json_key_order_invariance_witness :
    jsonStringify (_sortObject (.obj [("b", .num 2), ("a", .num 1)])) =
      jsonStringify (_sortObject (.obj [("a", .num 1), ("b", .num 2)])) := by
  have hg : GoodKeys (Json.obj [("b", Json.num 2), ("a", Json.num 1)]) := by
    refine GoodKeys.obj _ ?_ ?_
    · unfold nodupKeys
      decide
    · intro p hp
      simp only [List.mem_cons, List.not_mem_nil, or_false] at hp
      rcases hp with rfl | rfl
      · exact GoodKeys.num 2
      · exact GoodKeys.num 1
  have he : KeyEquiv (Json.obj [("b", Json.num 2), ("a", Json.num 1)])
      (Json.obj [("a", Json.num 1), ("b", Json.num 2)]) := by
    refine KeyEquiv.obj _ [("a", Json.num 1), ("b", Json.num 2)] _ ?_ rfl ?_ ?_
    · exact List.Perm.swap _ _ _
    · intro p hp
      simp only [List.zip, List.zipWith, List.mem_cons, List.not_mem_nil, or_false] at hp
      rcases hp with rfl | rfl <;> rfl
    · intro p hp
      simp only [List.zip, List.zipWith, List.mem_cons, List.not_mem_nil, or_false] at hp
      rcases hp with rfl | rfl
      · exact KeyEquiv.num 1
      · exact KeyEquiv.num 2
  exact json_key_order_invariance.1 _ _ hg he

end DiffChecker

end Odin
